import Mathlib

/-!
Formal model of the rudpbase reliable-UDP engine (crate rudpbase).

Shallow embedding conventions:
* Bytes are natural numbers; byte lists stand for Rust byte slices or Vec of u8.
* u32 and u64 values are naturals reduced modulo 2^32 and 2^64 exactly where the
  Rust code wraps (wrapping_add, integer casts).
* Instant and Duration are naturals counting milliseconds; the engine functions
  take the current instant as an explicit parameter wherever the Rust code calls
  Instant..now.
* HashMap of SocketAddr is an association list with first-match lookup; insert
  replaces the first binding, iteration is list order.  HashSet of u32 is a list
  queried with membership.
* Socket addresses are opaque, modelled as naturals.
* Functions that perform socket IO return, alongside the new state, the list of
  (destination, bytes) datagrams they pushed to the socket; the IO itself is
  assumed to succeed, as the source discards or propagates io errors orthogonally
  to the properties proved here.
-/

namespace Rudp

/-- Socket addresses are opaque identifiers with decidable equality. -/
abbrev Addr := Nat

/-- Association-list lookup, mirroring HashMap get on the key. -/
def alistGet? {β : Type} (m : List (Nat × β)) (k : Nat) : Option β :=
  match m with
  | [] => none
  | (k', v) :: rest => if k' = k then some v else alistGet? rest k

/-- Association-list insert, mirroring HashMap insert: replace the existing
binding for the key or append a fresh one. -/
def alistInsert {β : Type} (k : Nat) (v : β) (m : List (Nat × β)) : List (Nat × β) :=
  match m with
  | [] => [(k, v)]
  | (k', v') :: rest => if k' = k then (k, v) :: rest else (k', v') :: alistInsert k v rest

/-- Association-list removal, mirroring HashMap remove. -/
def alistErase {β : Type} (k : Nat) (m : List (Nat × β)) : List (Nat × β) :=
  match m with
  | [] => []
  | (k', v') :: rest => if k' = k then rest else (k', v') :: alistErase k rest

/-- Big-endian bytes of a u32 (u32.to_be_bytes). -/
def toBe32 (n : Nat) : List Nat :=
  [n / 2 ^ 24 % 256, n / 2 ^ 16 % 256, n / 2 ^ 8 % 256, n % 256]

/-- Reassemble a u32 from four big-endian bytes (u32.from_be_bytes). -/
def fromBe4 (a b c d : Nat) : Nat :=
  a * 2 ^ 24 + b * 2 ^ 16 + c * 2 ^ 8 + d

/-- Big-endian bytes of a u64 (u64.to_be_bytes). -/
def toBe64 (n : Nat) : List Nat :=
  [n / 2 ^ 56 % 256, n / 2 ^ 48 % 256, n / 2 ^ 40 % 256, n / 2 ^ 32 % 256,
   n / 2 ^ 24 % 256, n / 2 ^ 16 % 256, n / 2 ^ 8 % 256, n % 256]

/-- Big-endian bytes of a u16 (u16.to_be_bytes). -/
def toBe16 (n : Nat) : List Nat :=
  [n / 2 ^ 8 % 256, n % 256]

theorem fromBe4_toBe32 (n : Nat) : fromBe4 (n / 2 ^ 24 % 256) (n / 2 ^ 16 % 256)
    (n / 2 ^ 8 % 256) (n % 256) = n % 2 ^ 32 := by
  simp only [fromBe4]
  omega

/-- The error type of the crate (error.rs, RudpError), restricted to the
variants the modelled code paths construct.  Io carries no payload here because
the io error contents are opaque to the engine logic. -/
inductive RudpError : Type where
  | Io : RudpError
  | Protocol : String → RudpError
  | Security : RudpError
  | BufferTooLarge : Nat → Nat → RudpError
  | InternalError : RudpError
  | PacketTooSmall : Nat → Nat → RudpError
  | Timeout : RudpError
deriving DecidableEq

/-- Protocol header size in bytes (protocol.rs): type 1 + security_code 4 + seq 4. -/
def PROTOCOL_HEADER_SIZE : Nat := 9

/-- Maximum buffer size constant of protocol.rs. -/
def MAX_BUFFER_SIZE : Nat := 1200

/-- Packet types (protocol.rs, PacketType). -/
inductive PacketType : Type where
  | Ping | PingAck | Data | DataAck | DataNack | Close | CloseAck
deriving DecidableEq

/-- Numeric tag of a packet type (the repr u8 discriminant). -/
def PacketType.toU8 : PacketType → Nat
  | .Ping => 0
  | .PingAck => 1
  | .Data => 2
  | .DataAck => 3
  | .DataNack => 4
  | .Close => 5
  | .CloseAck => 6

/-- PacketType.from_u8 of protocol.rs. -/
def PacketType.from_u8 (value : Nat) : Option PacketType :=
  match value with
  | 0 => some .Ping
  | 1 => some .PingAck
  | 2 => some .Data
  | 3 => some .DataAck
  | 4 => some .DataNack
  | 5 => some .Close
  | 6 => some .CloseAck
  | _ => none

theorem from_u8_toU8 (pt : PacketType) : PacketType.from_u8 pt.toU8 = some pt := by
  cases pt <;> rfl

/-- Raw packet structure (protocol.rs, RawPacket). -/
structure RawPacket : Type where
  packet_type : PacketType
  security_code : Nat
  seq : Nat
  data : List Nat
deriving DecidableEq

/-- RawPacket.parse of protocol.rs: inputs shorter than the 9-byte header are
rejected with PacketTooSmall, an unknown leading type tag with Protocol;
otherwise the header fields are read big-endian and the rest is the payload.
The integrity code is read but deliberately not verified here. -/
def RawPacket.parse (packet : List Nat) : Except RudpError RawPacket :=
  match packet with
  | t :: a :: b :: c :: d :: e :: f :: g :: h :: rest =>
    match PacketType.from_u8 t with
    | none => .error (.Protocol ("Unknown packet type: " ++ toString t))
    | some pt => .ok ⟨pt, fromBe4 a b c d, fromBe4 e f g h, rest⟩
  | _ => .error (.PacketTooSmall packet.length PROTOCOL_HEADER_SIZE)

/-- RawPacket.serialize of protocol.rs: type byte, big-endian security code,
big-endian sequence, then payload. -/
def RawPacket.serialize (p : RawPacket) : List Nat :=
  p.packet_type.toU8 :: (toBe32 p.security_code ++ toBe32 p.seq ++ p.data)

/-- DataAckPacket of protocol.rs. -/
structure DataAckPacket : Type where
  ack_seqs : List Nat
deriving DecidableEq

/-- DataAckPacket.new. -/
def DataAckPacket.new (seqs : List Nat) : DataAckPacket := ⟨seqs⟩

/-- DataAckPacket.serialize: a count byte (the Rust `as u8` cast truncates the
length modulo 256) followed by each sequence in big-endian. -/
def DataAckPacket.serialize (p : DataAckPacket) : List Nat :=
  p.ack_seqs.length % 256 :: p.ack_seqs.flatMap toBe32

/-- Read count big-endian u32 values laid out consecutively. -/
def readSeqs : Nat → List Nat → List Nat
  | 0, _ => []
  | n + 1, l =>
    match l with
    | a :: b :: c :: d :: rest => fromBe4 a b c d :: readSeqs n rest
    | _ => []

/-- DataAckPacket.deserialize: reject empty input, read the count byte, reject
when fewer than 1 + count*4 bytes are present, else read count sequences. -/
def DataAckPacket.deserialize (data : List Nat) : Option DataAckPacket :=
  match data with
  | [] => none
  | cnt :: rest =>
    if rest.length + 1 < 1 + cnt * 4 then none
    else some ⟨readSeqs cnt rest⟩

/-- DataNackPacket of protocol.rs; its codec is byte-for-byte the same shape as
the ack codec. -/
structure DataNackPacket : Type where
  nack_seqs : List Nat
deriving DecidableEq

/-- DataNackPacket.serialize. -/
def DataNackPacket.serialize (p : DataNackPacket) : List Nat :=
  p.nack_seqs.length % 256 :: p.nack_seqs.flatMap toBe32

/-- DataNackPacket.deserialize. -/
def DataNackPacket.deserialize (data : List Nat) : Option DataNackPacket :=
  match data with
  | [] => none
  | cnt :: rest =>
    if rest.length + 1 < 1 + cnt * 4 then none
    else some ⟨readSeqs cnt rest⟩

/-- PingPacket of protocol.rs: an 8-byte big-endian timestamp. -/
structure PingPacket : Type where
  timestamp : Nat
deriving DecidableEq

/-- PingPacket.serialize. -/
def PingPacket.serialize (p : PingPacket) : List Nat := toBe64 p.timestamp

/-! Security code (security.rs): a 64-bit FNV-1a hash over salt, type byte,
big-endian sequence, 16-bit payload length, and the first 16 payload bytes
zero-padded, truncated to 32 bits. -/

/-- One FNV-1a step on a byte: xor then multiply by the 64-bit FNV prime,
wrapping at 2^64. -/
def fnvStep (h b : Nat) : Nat := (Nat.xor h b) * 1099511628211 % 2 ^ 64

/-- Fold the FNV-1a rounds over a byte list starting from a given state. -/
def fnvWrite (h : Nat) (bytes : List Nat) : Nat := bytes.foldl fnvStep h

/-- The 64-bit FNV offset basis used by FnvHasher.default. -/
def FNV_OFFSET : Nat := 14695981039346656037

/-- The salt bytes of SecurityCode: the ascii string ffmesh. -/
def SALT : List Nat := [102, 102, 109, 101, 115, 104]

/-- SecurityCode.calculate of security.rs: hash salt, type tag, big-endian seq,
payload length as big-endian u16 (the `as u16` cast wraps modulo 2^16), then the
first 16 payload bytes padded with zeros; the u64 digest is cast to u32. -/
def SecurityCode.calculate (packet_type : PacketType) (seq : Nat) (data : List Nat) : Nat :=
  let first16 : List Nat :=
    if data.length ≥ 16 then data.take 16
    else data ++ List.replicate (16 - data.length) 0
  fnvWrite FNV_OFFSET
    (SALT ++ [packet_type.toU8] ++ toBe32 seq ++ toBe16 (data.length % 2 ^ 16) ++ first16)
    % 2 ^ 32

/-- SecurityCode.verify of security.rs. -/
def SecurityCode.verify (packet_type : PacketType) (seq : Nat) (data : List Nat)
    (expected_code : Nat) : Bool :=
  SecurityCode.calculate packet_type seq data = expected_code

/-! Buffer pool (buffer_pool.rs). -/

/-- Default buffer size of buffer_pool.rs: the 9-byte protocol header plus a
1400-byte data region. -/
def DEFAULT_BUFFER_SIZE : Nat := PROTOCOL_HEADER_SIZE + 1400

/-- Maximum pool capacity. -/
def MAX_POOL_CAPACITY : Nat := 200000

/-- Default initial pool capacity. -/
def DEFAULT_INITIAL_CAPACITY : Nat := 500

/-- PooledBuffer of buffer_pool.rs: the raw bytes (header space included) and
the current user-data length.  The pool back-reference is not modelled; buffer
release is modelled on the pool itself. -/
structure PooledBuffer : Type where
  raw_buffer : List Nat
  data_len : Nat
deriving DecidableEq

namespace PooledBuffer

/-- The user data region (everything after the reserved header). -/
def dataRegion (b : PooledBuffer) : List Nat := b.raw_buffer.drop PROTOCOL_HEADER_SIZE

/-- PooledBuffer.data: the user data written so far. -/
def data (b : PooledBuffer) : List Nat :=
  (b.raw_buffer.drop PROTOCOL_HEADER_SIZE).take b.data_len

/-- PooledBuffer.set_data_len: fails with BufferTooLarge when the requested
length exceeds the capacity of the data region, else records the length.  The
buffer is returned alongside the result, mirroring the &mut self receiver: on
failure it is returned unchanged. -/
def set_data_len (b : PooledBuffer) (len : Nat) : PooledBuffer × Except RudpError Unit :=
  let max_data_len := b.raw_buffer.length - PROTOCOL_HEADER_SIZE
  if len > max_data_len then (b, .error (.BufferTooLarge len max_data_len))
  else ({ b with data_len := len }, .ok ())

/-- PooledBuffer.full_data: header plus written user data. -/
def full_data (b : PooledBuffer) : List Nat :=
  b.raw_buffer.take (PROTOCOL_HEADER_SIZE + b.data_len)

/-- Write the user data region starting at its origin (data_mut slice
assignment of the first bytes), leaving the remainder of the region intact. -/
def writeData (b : PooledBuffer) (bytes : List Nat) : PooledBuffer :=
  { b with raw_buffer :=
      b.raw_buffer.take PROTOCOL_HEADER_SIZE ++ bytes ++
        b.raw_buffer.drop (PROTOCOL_HEADER_SIZE + bytes.length) }

/-- PooledBuffer.fill_protocol_header: computes the security code over the
current user data and writes type, code, and sequence into the reserved
header prefix. -/
def fill_protocol_header (b : PooledBuffer) (packet_type : PacketType) (seq : Nat) :
    PooledBuffer :=
  let security_code := SecurityCode.calculate packet_type seq b.data
  { b with raw_buffer :=
      packet_type.toU8 :: (toBe32 security_code ++ toBe32 seq ++
        b.raw_buffer.drop PROTOCOL_HEADER_SIZE) }

end PooledBuffer

/-- BufferPool of buffer_pool.rs: the free list and its counters. -/
structure BufferPool : Type where
  free_buffers : List (List Nat)
  total_allocations : Nat
  pool_hits : Nat
  pool_misses : Nat
deriving DecidableEq

namespace BufferPool

/-- BufferPool.new: pre-populate the free list with zeroed buffers of the one
fixed size. -/
def new (initial_capacity : Nat) : BufferPool :=
  ⟨List.replicate initial_capacity (List.replicate DEFAULT_BUFFER_SIZE 0), 0, 0, 0⟩

/-- BufferPool.get_buffer: pop the front of the free list (hit) or allocate a
fresh zeroed buffer of the fixed size (miss). -/
def get_buffer (p : BufferPool) : List Nat × BufferPool :=
  match p.free_buffers with
  | raw :: rest =>
    (raw, { p with
            free_buffers := rest,
            total_allocations := p.total_allocations + 1,
            pool_hits := p.pool_hits + 1 })
  | [] =>
    (List.replicate DEFAULT_BUFFER_SIZE 0,
     { p with
       total_allocations := p.total_allocations + 1,
       pool_misses := p.pool_misses + 1 })

/-- SharedBufferPool.get_write_buffer: wrap the raw bytes with data length 0. -/
def get_write_buffer (p : BufferPool) : PooledBuffer × BufferPool :=
  let (raw, p') := p.get_buffer
  (⟨raw, 0⟩, p')

/-- The release performed by the PooledBuffer Drop impl: reset the data length
and push the raw bytes back unless the pool is at capacity. -/
def release (p : BufferPool) (b : PooledBuffer) : BufferPool :=
  if p.free_buffers.length < MAX_POOL_CAPACITY then
    { p with free_buffers := p.free_buffers ++ [b.raw_buffer] }
  else p

end BufferPool

/-! Statistics and liveness (stats.rs). -/

/-- Connection status (stats.rs). -/
inductive ConnectionStatus : Type where
  | Alive | Probing | Degraded | Dead
deriving DecidableEq

/-- ConnectionStats of stats.rs.  Counters are u64; they are modelled as
unbounded naturals because every modelled path only ever adds one, far from the
wrap.  avg_rtt is kept in nanoseconds as the source stores a Duration updated
at nanosecond granularity. -/
structure ConnectionStats : Type where
  packets_sent : Nat
  packets_received : Nat
  packets_lost : Nat
  retransmissions : Nat
  avg_rtt_ns : Nat
  last_activity : Nat
deriving DecidableEq

namespace ConnectionStats

/-- ConnectionStats.new at the given instant (the source reads Instant..now). -/
def new (now : Nat) : ConnectionStats := ⟨0, 0, 0, 0, 200000000, now⟩

/-- record_packet_sent. -/
def record_packet_sent (s : ConnectionStats) (now : Nat) : ConnectionStats :=
  { s with packets_sent := s.packets_sent + 1, last_activity := now }

/-- record_packet_received. -/
def record_packet_received (s : ConnectionStats) (now : Nat) : ConnectionStats :=
  { s with packets_received := s.packets_received + 1, last_activity := now }

/-- record_packet_lost. -/
def record_packet_lost (s : ConnectionStats) : ConnectionStats :=
  { s with packets_lost := s.packets_lost + 1 }

/-- record_retransmission. -/
def record_retransmission (s : ConnectionStats) : ConnectionStats :=
  { s with retransmissions := s.retransmissions + 1 }

/-- ConnectionStats.update_rtt: a moving average over nanoseconds; the sample
here is in milliseconds and converted exactly. -/
def update_rtt (s : ConnectionStats) (rtt_ms : Nat) : ConnectionStats :=
  { s with avg_rtt_ns := (s.avg_rtt_ns * 7 + rtt_ms * 1000000) / 8 }

end ConnectionStats

/-- Congestion control state (stats.rs). -/
inductive CongestionState : Type where
  | SlowStart | CongestionAvoidance | FastRecovery
deriving DecidableEq

/-- RttStats of stats.rs.  srtt, rttvar and rto are Durations stored at whole
milliseconds (every write goes through Duration..from_millis). -/
structure RttStats : Type where
  srtt : Nat
  rttvar : Nat
  rto : Nat
  cwnd : Nat
  ssthresh : Nat
  in_flight : Nat
  last_congestion : Option Nat
  congestion_state : CongestionState
deriving DecidableEq

namespace RttStats

/-- RttStats.new. -/
def new : RttStats := ⟨100, 50, 200, 1, 65535, 0, none, .SlowStart⟩

/-- RttStats.update_rtt.  The source computes in f64 with alpha 1/8, beta 1/4,
K 4, G 10 ms and truncates with `as u64`.  At millisecond magnitudes every f64
operation involved is exact (the coefficients are dyadic and the products fit
the 53-bit mantissa), so the computation equals exact rational arithmetic
followed by floor, which over whole milliseconds is the natural-number
arithmetic below: rttvar4 is four times the new rttvar and srtt8 eight times
the new srtt, both exact. -/
def update_rtt (s : RttStats) (rtt_sample : Nat) : RttStats :=
  let d := max s.srtt rtt_sample - min s.srtt rtt_sample
  let rttvar4 := 3 * s.rttvar + d
  let srtt8 := 7 * s.srtt + rtt_sample
  { s with rttvar := rttvar4 / 4,
           srtt := srtt8 / 8,
           rto := max (min ((srtt8 + 8 * max rttvar4 10) / 8) 60000) 200 }

/-- RttStats.on_packet_sent. -/
def on_packet_sent (s : RttStats) : RttStats := { s with in_flight := s.in_flight + 1 }

/-- RttStats.can_send: the congestion admission predicate. -/
def can_send (s : RttStats) : Bool := s.in_flight < s.cwnd

/-- RttStats.available_window. -/
def available_window (s : RttStats) : Nat := s.cwnd - s.in_flight

end RttStats

/-- ConnectionState of stats.rs: per-peer liveness tracking. -/
structure ConnectionState : Type where
  last_activity : Nat
  ping_sent : Option Nat
  consecutive_ping_failures : Nat
  status : ConnectionStatus
deriving DecidableEq

namespace ConnectionState

/-- ConnectionState.new. -/
def new (now : Nat) : ConnectionState := ⟨now, none, 0, .Alive⟩

/-- update_activity. -/
def update_activity (s : ConnectionState) (now : Nat) : ConnectionState :=
  { s with last_activity := now, consecutive_ping_failures := 0, status := .Alive }

/-- mark_ping_sent. -/
def mark_ping_sent (s : ConnectionState) (now : Nat) : ConnectionState :=
  { s with ping_sent := some now, status := .Probing }

/-- mark_ping_received. -/
def mark_ping_received (s : ConnectionState) (now : Nat) : ConnectionState :=
  { s with ping_sent := none, consecutive_ping_failures := 0, status := .Alive,
           last_activity := now }

/-- should_ping: idle for more than 30 s with no ping pending. -/
def should_ping (s : ConnectionState) (now : Nat) : Bool :=
  decide (now - s.last_activity > 30000) && s.ping_sent.isNone

/-- should_close of stats.rs: when a ping is pending it requires both the 10 s
ping timeout and three failures; only with no ping pending do three failures
alone suffice. -/
def should_close (s : ConnectionState) (now : Nat) : Bool :=
  match s.ping_sent with
  | some ping_time =>
    decide (now - ping_time > 10000) && decide (s.consecutive_ping_failures ≥ 3)
  | none => decide (s.consecutive_ping_failures ≥ 3)

/-- mark_packet_lost. -/
def mark_packet_lost (s : ConnectionState) : ConnectionState :=
  { s with status := .Degraded }

end ConnectionState

/-! Core engine (core.rs). -/

/-- PendingPacket of core.rs. -/
structure PendingPacket : Type where
  data : List Nat
  send_time : Nat
  retry_count : Nat
  rto : Nat
deriving DecidableEq

namespace PendingPacket

/-- PendingPacket.new at the given instant. -/
def new (data : List Nat) (now rto : Nat) : PendingPacket := ⟨data, now, 0, rto⟩

/-- should_retry: the packet timer has expired. -/
def should_retry (p : PendingPacket) (now : Nat) : Bool :=
  decide (now - p.send_time ≥ p.rto)

/-- retry: bump the retry count, restamp the send time, adopt the new rto. -/
def retry (p : PendingPacket) (now rto : Nat) : PendingPacket :=
  { p with retry_count := p.retry_count + 1, send_time := now, rto := rto }

end PendingPacket

/-- The mutable state of a Rudpbase engine (core.rs), with the socket replaced
by explicit datagram emission and the clock by explicit now parameters. -/
structure Rudpbase : Type where
  send_buffer : List (Addr × List (Nat × PendingPacket))
  recv_acks : List (Addr × List Nat)
  next_seq : List (Addr × Nat)
  rtt_stats : List (Addr × RttStats)
  connection_stats : List (Addr × ConnectionStats)
  connection_states : List (Addr × ConnectionState)
  pending_acks : List (Addr × List Nat)
  buffer_pool : BufferPool
deriving DecidableEq

namespace Rudpbase

/-- An engine with no tracked peers and a freshly warmed pool. -/
def init : Rudpbase :=
  ⟨[], [], [], [], [], [], [], BufferPool.new DEFAULT_INITIAL_CAPACITY⟩

/-- Rudpbase.get_next_seq on the per-destination counter map: or-insert 0,
return the current value, store its wrapping successor. -/
def get_next_seq (m : List (Addr × Nat)) (addr : Addr) : Nat × List (Addr × Nat) :=
  let current := (alistGet? m addr).getD 0
  (current, alistInsert addr ((current + 1) % 2 ^ 32) m)

/-- Rudpbase.send of core.rs: assign the next sequence for the target, fill the
protocol header, park a copy of the frame in the retransmit map with the peer
rto (default 200 ms), transmit, and bump statistics and liveness.  The socket
write is modelled as always succeeding, so the result is always ok. -/
def send (r : Rudpbase) (buffer : PooledBuffer) (target : Addr) (now : Nat) :
    Rudpbase × List (Addr × List Nat) × Except RudpError Unit :=
  let (seq, ns) := get_next_seq r.next_seq target
  let buffer := buffer.fill_protocol_header .Data seq
  let rto := ((alistGet? r.rtt_stats target).map RttStats.rto).getD 200
  let pending := PendingPacket.new buffer.full_data now rto
  let sb := alistInsert target
    (alistInsert seq pending ((alistGet? r.send_buffer target).getD [])) r.send_buffer
  let cs := alistInsert target
    (((alistGet? r.connection_stats target).getD (ConnectionStats.new now)).record_packet_sent now)
    r.connection_stats
  let st := alistInsert target
    (((alistGet? r.connection_states target).getD (ConnectionState.new now)).update_activity now)
    r.connection_states
  ({ r with next_seq := ns, send_buffer := sb, connection_stats := cs,
            connection_states := st },
   [(target, buffer.full_data)], .ok ())

/-- Rudpbase.send_ack: queue an acknowledgement for later flushing. -/
def send_ack (r : Rudpbase) (target : Addr) (seq : Nat) : Rudpbase :=
  { r with pending_acks :=
      alistInsert target ((alistGet? r.pending_acks target).getD [] ++ [seq]) r.pending_acks }

/-- Rudpbase.handle_data_packet of core.rs.  A duplicate sequence only
re-queues an acknowledgement; a fresh sequence is recorded, acknowledged,
counted, and its payload copied into a freshly acquired pooled buffer that is
handed to the caller. -/
def handle_data_packet (r : Rudpbase) (packet : RawPacket) (frm : Addr) (now : Nat) :
    Rudpbase × Except RudpError (Option (Addr × PooledBuffer)) :=
  let received_seqs := (alistGet? r.recv_acks frm).getD []
  let r := { r with recv_acks := alistInsert frm received_seqs r.recv_acks }
  if packet.seq ∈ received_seqs then
    (send_ack r frm packet.seq, .ok none)
  else
    let r := { r with recv_acks := alistInsert frm (packet.seq :: received_seqs) r.recv_acks }
    let r := send_ack r frm packet.seq
    let cs := alistInsert frm
      (((alistGet? r.connection_stats frm).getD (ConnectionStats.new now)).record_packet_received now)
      r.connection_stats
    let r := { r with connection_stats := cs }
    let buffer := r.buffer_pool.get_write_buffer.1
    let r := { r with buffer_pool := r.buffer_pool.get_write_buffer.2 }
    if packet.data.length > buffer.dataRegion.length then
      (r, .error (.BufferTooLarge packet.data.length buffer.dataRegion.length))
    else
      match (buffer.writeData packet.data).set_data_len packet.data.length with
      | (_, .error e) => (r, .error e)
      | (buffer, .ok _) => (r, .ok (some (frm, buffer)))

/-- One iteration of the ack loop in handle_data_ack_packet: if the sequence is
pending for the peer, drop it from the retransmit map and feed the elapsed time
since its last send to the rtt estimator and the per-connection statistics. -/
def ackOne (r : Rudpbase) (frm : Addr) (now ack_seq : Nat) : Rudpbase :=
  match alistGet? r.send_buffer frm with
  | none => r
  | some pending_packets =>
    match alistGet? pending_packets ack_seq with
    | none => r
    | some pending_packet =>
      let sb := alistInsert frm (alistErase ack_seq pending_packets) r.send_buffer
      let r := { r with send_buffer := sb }
      let rtt := now - pending_packet.send_time
      let rs := alistInsert frm (((alistGet? r.rtt_stats frm).getD RttStats.new).update_rtt rtt)
        r.rtt_stats
      let r := { r with rtt_stats := rs }
      let cs := alistInsert frm
        (((alistGet? r.connection_stats frm).getD (ConnectionStats.new now)).update_rtt rtt)
        r.connection_stats
      { r with connection_stats := cs }

/-- Rudpbase.handle_data_ack_packet of core.rs: deserialize the ack list and
process each acknowledged sequence in order.  The rtt sample is taken for every
removed packet, with no look at its retry count. -/
def handle_data_ack_packet (r : Rudpbase) (packet : RawPacket) (frm : Addr) (now : Nat) :
    Rudpbase :=
  match DataAckPacket.deserialize packet.data with
  | none => r
  | some ack_packet => ack_packet.ack_seqs.foldl (fun r s => ackOne r frm now s) r

/-- The per-peer packet sweep of handle_retransmissions: returns the retained
packets (expired packets past 5 retries dropped, expired packets under the cap
restamped with doubled rto), the bytes retransmitted in order, and how many
retransmissions occurred. -/
def processPkts (now : Nat) :
    List (Nat × PendingPacket) → List (Nat × PendingPacket) × List (List Nat) × Nat
  | [] => ([], [], 0)
  | (s, p) :: rest =>
    if p.should_retry now then
      if p.retry_count ≥ 5 then processPkts now rest
      else
        let p' := p.retry now (p.rto * 2)
        let (ps, es, n) := processPkts now rest
        ((s, p') :: ps, p'.data :: es, n + 1)
    else
      let (ps, es, n) := processPkts now rest
      ((s, p) :: ps, es, n)

/-- The outer loop of handle_retransmissions over the retransmit map: sweep
each peer, emit its retransmissions, and apply record_retransmission once per
retransmitted packet (creating the statistics entry only when at least one
occurred, as entry or_insert does). -/
def retransLoop (now : Nat) (cs : List (Addr × ConnectionStats)) :
    List (Addr × List (Nat × PendingPacket)) →
    List (Addr × List (Nat × PendingPacket)) × List (Addr × ConnectionStats) ×
      List (Addr × List Nat)
  | [] => ([], cs, [])
  | (a, pkts) :: rest =>
    let (pkts', emits, n) := processPkts now pkts
    let cs' :=
      if n = 0 then cs
      else
        let old := (alistGet? cs a).getD (ConnectionStats.new now)
        alistInsert a { old with retransmissions := old.retransmissions + n } cs
    let (sb, cs'', es) := retransLoop now cs' rest
    ((a, pkts') :: sb, cs'', emits.map (fun e => (a, e)) ++ es)

/-- The trailing loop of handle_retransmissions: for every peer still holding
pending packets, mark the connection Degraded (when tracked) and bump its
packets_lost counter. -/
def lossLoop (now : Nat) (st : List (Addr × ConnectionState))
    (cs : List (Addr × ConnectionStats)) :
    List Addr → List (Addr × ConnectionState) × List (Addr × ConnectionStats)
  | [] => (st, cs)
  | a :: rest =>
    let st' :=
      match alistGet? st a with
      | some s => alistInsert a s.mark_packet_lost st
      | none => st
    let cs' :=
      alistInsert a (((alistGet? cs a).getD (ConnectionStats.new now)).record_packet_lost) cs
    lossLoop now st' cs' rest

/-- Rudpbase.handle_retransmissions of core.rs: sweep every pending packet,
drop the ones past 5 retries, restamp and resend the other expired ones with
rto doubled, purge peers left with no pending packets, then mark a loss for
every peer that still has pending packets. -/
def handle_retransmissions (r : Rudpbase) (now : Nat) :
    Rudpbase × List (Addr × List Nat) :=
  let (sb1, cs1, emissions) := retransLoop now r.connection_stats r.send_buffer
  let sb2 := sb1.filter (fun p => !p.2.isEmpty)
  let (st2, cs2) := lossLoop now r.connection_states cs1 (sb2.map (fun p => p.1))
  ({ r with send_buffer := sb2, connection_stats := cs2, connection_states := st2 },
   emissions)

/-- The flush loop of send_pending_acks: every queued list is drained; a
non-empty list becomes one DataAck frame carrying the whole list, stamped with
a fresh sequence from the per-destination counter. -/
def ackFlushLoop (ns : List (Addr × Nat)) :
    List (Addr × List Nat) → List (Addr × Nat) × List (Addr × List Nat)
  | [] => (ns, [])
  | (target, ack_seqs) :: rest =>
    if ack_seqs.isEmpty then ackFlushLoop ns rest
    else
      let ack_packet := DataAckPacket.new ack_seqs
      let (seq, ns1) := get_next_seq ns target
      let security_code := SecurityCode.calculate .DataAck seq ack_packet.serialize
      let frame := RawPacket.serialize ⟨.DataAck, security_code, seq, ack_packet.serialize⟩
      let (ns2, es) := ackFlushLoop ns1 rest
      (ns2, (target, frame) :: es)

/-- Rudpbase.send_pending_acks of core.rs. -/
def send_pending_acks (r : Rudpbase) : Rudpbase × List (Addr × List Nat) :=
  let (ns, emissions) := ackFlushLoop r.next_seq r.pending_acks
  ({ r with pending_acks := [], next_seq := ns }, emissions)

/-- Rudpbase.send_close_packet of core.rs. -/
def send_close_packet (r : Rudpbase) (target : Addr) :
    Rudpbase × List (Addr × List Nat) × Except RudpError Unit :=
  let (seq, ns) := get_next_seq r.next_seq target
  let security_code := SecurityCode.calculate .Close seq []
  let frame := RawPacket.serialize ⟨.Close, security_code, seq, []⟩
  ({ r with next_seq := ns }, [(target, frame)], .ok ())

/-- The ping emission performed by check_connection_health for one peer due a
ping: build a Ping frame carrying the clock timestamp, stamp it with a fresh
sequence from the per-destination counter, transmit, and mark the ping sent. -/
def sendPing (r : Rudpbase) (addr : Addr) (timestamp now : Nat) :
    Rudpbase × List (Addr × List Nat) :=
  let ping_packet : PingPacket := ⟨timestamp⟩
  let (seq, ns) := get_next_seq r.next_seq addr
  let security_code := SecurityCode.calculate .Ping seq ping_packet.serialize
  let frame := RawPacket.serialize ⟨.Ping, security_code, seq, ping_packet.serialize⟩
  let st :=
    match alistGet? r.connection_states addr with
    | some s => alistInsert addr (s.mark_ping_sent now) r.connection_states
    | none => r.connection_states
  ({ r with next_seq := ns, connection_states := st }, [(addr, frame)])

end Rudpbase

/-! Helper lemmas about the association-list operations. -/

theorem alistGet?_alistInsert_self {β : Type} (m : List (Nat × β)) (k : Nat) (v : β) :
    alistGet? (alistInsert k v m) k = some v := by
  induction m with
  | nil => simp [alistInsert, alistGet?]
  | cons hd tl ih =>
    obtain ⟨k', v'⟩ := hd
    by_cases h : k' = k <;> simp [alistInsert, alistGet?, h, ih]

theorem alistGet?_alistInsert_ne {β : Type} (m : List (Nat × β)) (k k' : Nat) (v : β)
    (h : k' ≠ k) : alistGet? (alistInsert k v m) k' = alistGet? m k' := by
  induction m with
  | nil =>
    simp only [alistInsert, alistGet?]
    rw [if_neg (by omega)]
  | cons hd tl ih =>
    obtain ⟨k0, v0⟩ := hd
    by_cases h0 : k0 = k <;> by_cases h1 : k0 = k' <;>
      simp_all [alistInsert, alistGet?]

/-! Claim C6: the should_close predicate. -/

/-- Claim C6 counterexample: with three consecutive ping failures but a ping
still pending for only 5 s, should_close is false, although the claimed
disjunctive formula (whose second disjunct is consecutive_ping_failures ≥ 3
alone) would make it true.  should_close does not hold whenever
consecutive_ping_failures ≥ 3. -/
theorem should_close_counterexample :
    (ConnectionState.should_close ⟨0, some 0, 3, .Probing⟩ 5000) = false ∧
    (3 ≥ (⟨0, some 0, 3, .Probing⟩ : ConnectionState).consecutive_ping_failures) ∧
    ¬((ConnectionState.should_close ⟨0, some 0, 3, .Probing⟩ 5000) = true ↔
      ((∃ t, (⟨0, some 0, 3, .Probing⟩ : ConnectionState).ping_sent = some t ∧
          5000 - t > 10000 ∧
          (⟨0, some 0, 3, .Probing⟩ : ConnectionState).consecutive_ping_failures ≥ 3) ∨
        (⟨0, some 0, 3, .Probing⟩ : ConnectionState).consecutive_ping_failures ≥ 3)) := by
  refine ⟨rfl, by decide, ?_⟩
  intro h
  have := h.mpr (Or.inr (by decide))
  simp [ConnectionState.should_close] at this

/-- Claim C6, amended: should_close(now) holds iff consecutive_ping_failures ≥ 3
and, in addition, either no ping is pending or the pending ping is older than
10 s; with a recent ping pending, three failures alone do not close. -/
theorem should_close_spec (s : ConnectionState) (now : Nat) :
    s.should_close now = true ↔
      (s.consecutive_ping_failures ≥ 3 ∧
       (s.ping_sent = none ∨ ∃ t, s.ping_sent = some t ∧ now - t > 10000)) := by
  cases h : s.ping_sent with
  | none => simp [ConnectionState.should_close, h]
  | some t =>
    simp only [ConnectionState.should_close, h, Bool.and_eq_true, decide_eq_true_eq]
    constructor
    · rintro ⟨h1, h2⟩
      exact ⟨h2, Or.inr ⟨t, rfl, h1⟩⟩
    · rintro ⟨h1, h2 | ⟨t', ht', h3⟩⟩
      · cases h2
      · cases ht'
        exact ⟨h3, h1⟩

/-! Claim C5: pooled buffer capacity and set_data_len. -/

set_option maxRecDepth 8000 in
/-- Claim C5 counterexample: the pool's fixed buffer size is 9 + 1400 = 1409,
not 9 + 1200, and setting a data length of 1300 (over the claimed 1200-byte
payload cap) succeeds on a freshly acquired buffer instead of failing with
BufferTooLarge. -/
theorem set_data_len_counterexample :
    DEFAULT_BUFFER_SIZE = 1409 ∧ DEFAULT_BUFFER_SIZE ≠ PROTOCOL_HEADER_SIZE + 1200 ∧
    ((BufferPool.new DEFAULT_INITIAL_CAPACITY).get_write_buffer.1.set_data_len 1300).2 =
      .ok () ∧
    ((BufferPool.new DEFAULT_INITIAL_CAPACITY).get_write_buffer.1.set_data_len 1300).1.data_len
      = 1300 := by
  refine ⟨rfl, by decide, ?_, ?_⟩ <;> rfl


/-- Claim C5, amended: every buffer yielded by the pool has the one fixed
capacity of a 9-byte header plus a 1400-byte maximum payload (provided the free
list only holds buffers of the fixed size, as every pool constructor and
release maintains), and set_data_len fails with BufferTooLarge exactly when the
requested length exceeds the 1400-byte payload capacity, leaving the stored
length unchanged on failure. -/
theorem set_data_len_spec (p : BufferPool)
    (hp : ∀ raw ∈ p.free_buffers, raw.length = DEFAULT_BUFFER_SIZE) :
    (p.get_write_buffer.1.raw_buffer.length = DEFAULT_BUFFER_SIZE ∧
     p.get_write_buffer.1.data_len = 0) ∧
    ∀ len,
      (len > 1400 →
        p.get_write_buffer.1.set_data_len len =
          (p.get_write_buffer.1, .error (.BufferTooLarge len 1400))) ∧
      (len ≤ 1400 →
        (p.get_write_buffer.1.set_data_len len).1.data_len = len ∧
        (p.get_write_buffer.1.set_data_len len).2 = .ok ()) := by
  have hlen : p.get_write_buffer.1.raw_buffer.length = DEFAULT_BUFFER_SIZE := by
    unfold BufferPool.get_write_buffer BufferPool.get_buffer
    cases h : p.free_buffers with
    | nil => simp
    | cons raw rest => simpa using hp raw (h ▸ List.mem_cons_self raw rest)
  have hcap : p.get_write_buffer.1.raw_buffer.length - PROTOCOL_HEADER_SIZE = 1400 := by
    rw [hlen]; rfl
  refine ⟨⟨hlen, ?_⟩, ?_⟩
  · unfold BufferPool.get_write_buffer
    cases h : p.free_buffers <;> simp [BufferPool.get_buffer, h]
  · intro len
    constructor
    · intro hgt
      simp only [PooledBuffer.set_data_len, hcap]
      rw [if_pos hgt]
    · intro hle
      simp only [PooledBuffer.set_data_len, hcap]
      rw [if_neg (by omega)]
      exact ⟨rfl, rfl⟩

/-- Witness for the amended C5 theorem at the default pool: the fixed capacity
and both branches of set_data_len at lengths 1401 and 7. -/
theorem set_data_len_spec_witness :
    ((BufferPool.new DEFAULT_INITIAL_CAPACITY).get_write_buffer.1.set_data_len 1401).2 =
      .error (.BufferTooLarge 1401 1400) ∧
    ((BufferPool.new DEFAULT_INITIAL_CAPACITY).get_write_buffer.1.set_data_len 7).1.data_len
      = 7 := by
  have h := set_data_len_spec (BufferPool.new DEFAULT_INITIAL_CAPACITY)
    (by intro raw hraw
        simp only [BufferPool.new] at hraw
        exact (List.eq_of_mem_replicate hraw) ▸ by simp)
  refine ⟨?_, ((h.2 7).2 (by omega)).1⟩
  rw [(h.2 1401).1 (by omega)]

/-! Claim C8: frame codec round-trip and parse rejection. -/

/-- Claim C8: for every packet type, 32-bit code and sequence, and payload of
at most 1200 bytes, parsing the serialization succeeds with the same type,
sequence, and payload; parse rejects inputs shorter than 9 bytes with
PacketTooSmall and unknown type tags with Protocol.  The integrity code is
quantified over all 32-bit values, so a mismatched code is parsed just as a
matching one: parse itself does not verify the integrity tag. -/
theorem parse_spec :
    (∀ (pt : PacketType) (code seq : Nat) (payload : List Nat),
       code < 2 ^ 32 → seq < 2 ^ 32 → payload.length ≤ 1200 →
       RawPacket.parse (RawPacket.serialize ⟨pt, code, seq, payload⟩) =
         .ok ⟨pt, code, seq, payload⟩) ∧
    (∀ bytes : List Nat, bytes.length < PROTOCOL_HEADER_SIZE →
       RawPacket.parse bytes = .error (.PacketTooSmall bytes.length PROTOCOL_HEADER_SIZE)) ∧
    (∀ (t : Nat) (rest : List Nat), PacketType.from_u8 t = none → 8 ≤ rest.length →
       RawPacket.parse (t :: rest) =
         .error (.Protocol ("Unknown packet type: " ++ toString t))) := by
  refine ⟨?_, ?_, ?_⟩
  · intro pt code seq payload hc hs _
    show RawPacket.parse (pt.toU8 :: (toBe32 code ++ toBe32 seq ++ payload)) = _
    simp only [toBe32, List.cons_append, List.nil_append]
    simp only [RawPacket.parse, from_u8_toU8]
    rw [fromBe4_toBe32, fromBe4_toBe32, Nat.mod_eq_of_lt hc, Nat.mod_eq_of_lt hs]
  · intro bytes h
    rcases bytes with _ | ⟨b0, _ | ⟨b1, _ | ⟨b2, _ | ⟨b3, _ | ⟨b4, _ | ⟨b5, _ | ⟨b6, _ |
      ⟨b7, _ | ⟨b8, rest⟩⟩⟩⟩⟩⟩⟩⟩⟩ <;>
      first
        | rfl
        | (simp only [List.length_cons, PROTOCOL_HEADER_SIZE] at h; omega)
  · intro t rest hnone hlen
    rcases rest with _ | ⟨b0, _ | ⟨b1, _ | ⟨b2, _ | ⟨b3, _ | ⟨b4, _ | ⟨b5, _ | ⟨b6, _ |
      ⟨b7, rest⟩⟩⟩⟩⟩⟩⟩⟩ <;>
      first
        | (simp only [List.length_cons, List.length_nil] at hlen; omega)
        | simp only [RawPacket.parse, hnone]

/-- Witness for C8: the round-trip at a concrete Data frame, a 2-byte input
rejected as too small, and an unknown tag 9 rejected as a protocol error. -/
theorem parse_spec_witness :
    RawPacket.parse (RawPacket.serialize ⟨.Data, 77, 5, [10, 20, 30]⟩) =
      .ok ⟨.Data, 77, 5, [10, 20, 30]⟩ ∧
    RawPacket.parse [2, 0] = .error (.PacketTooSmall 2 PROTOCOL_HEADER_SIZE) ∧
    RawPacket.parse (9 :: [0, 0, 0, 0, 0, 0, 0, 0]) =
      .error (.Protocol ("Unknown packet type: " ++ toString 9)) :=
  ⟨parse_spec.1 .Data 77 5 [10, 20, 30] (by decide) (by decide) (by decide),
   parse_spec.2.1 [2, 0] (by decide),
   parse_spec.2.2 9 [0, 0, 0, 0, 0, 0, 0, 0] (by decide) (by decide)⟩

/-! Claim C9: ack and nack payload codec round-trip. -/

theorem flatMap_toBe32_length (seqs : List Nat) :
    (seqs.flatMap toBe32).length = 4 * seqs.length := by
  induction seqs with
  | nil => rfl
  | cons s rest ih =>
    simp only [List.flatMap_cons, List.length_append, ih, toBe32]
    simp [List.length_cons]
    omega

theorem readSeqs_flatMap (seqs : List Nat) (h : ∀ s ∈ seqs, s < 2 ^ 32) :
    readSeqs seqs.length (seqs.flatMap toBe32) = seqs := by
  induction seqs with
  | nil => rfl
  | cons s rest ih =>
    simp only [List.flatMap_cons, toBe32, List.cons_append, List.nil_append,
      List.length_cons, readSeqs]
    rw [fromBe4_toBe32, Nat.mod_eq_of_lt (h s (List.mem_cons_self s rest)),
      ih (fun x hx => h x (List.mem_cons_of_mem s hx))]

/-- Claim C9: for ack and nack packets listing at most 255 32-bit sequences,
deserialization of the serialization returns the same list; the count byte
written is the list length reduced modulo 256, whatever the length. -/
theorem ack_nack_roundtrip :
    (∀ seqs : List Nat, seqs.length ≤ 255 → (∀ s ∈ seqs, s < 2 ^ 32) →
       DataAckPacket.deserialize (DataAckPacket.serialize ⟨seqs⟩) = some ⟨seqs⟩) ∧
    (∀ seqs : List Nat, seqs.length ≤ 255 → (∀ s ∈ seqs, s < 2 ^ 32) →
       DataNackPacket.deserialize (DataNackPacket.serialize ⟨seqs⟩) = some ⟨seqs⟩) ∧
    (∀ seqs : List Nat, (DataAckPacket.serialize ⟨seqs⟩).head? = some (seqs.length % 256)) ∧
    (∀ seqs : List Nat, (DataNackPacket.serialize ⟨seqs⟩).head? = some (seqs.length % 256)) := by
  have key : ∀ seqs : List Nat, seqs.length ≤ 255 → (∀ s ∈ seqs, s < 2 ^ 32) →
      (if (seqs.flatMap toBe32).length + 1 < 1 + seqs.length % 256 * 4 then
        (none : Option (List Nat))
       else some (readSeqs (seqs.length % 256) (seqs.flatMap toBe32))) = some seqs := by
    intro seqs hlen hbound
    have hmod : seqs.length % 256 = seqs.length := Nat.mod_eq_of_lt (by omega)
    rw [hmod, if_neg (by rw [flatMap_toBe32_length]; omega), readSeqs_flatMap seqs hbound]
  refine ⟨?_, ?_, fun seqs => rfl, fun seqs => rfl⟩
  · intro seqs hlen hbound
    have := key seqs hlen hbound
    simp only [DataAckPacket.serialize, DataAckPacket.deserialize]
    split at this
    · simp_all
    · rw [if_neg (by assumption)]
      simp_all
  · intro seqs hlen hbound
    have := key seqs hlen hbound
    simp only [DataNackPacket.serialize, DataNackPacket.deserialize]
    split at this
    · simp_all
    · rw [if_neg (by assumption)]
      simp_all

/-- Witness for C9 at a two-element list including the largest 32-bit value. -/
theorem ack_nack_roundtrip_witness :
    DataAckPacket.deserialize (DataAckPacket.serialize ⟨[1, 4294967295]⟩) =
      some ⟨[1, 4294967295]⟩ ∧
    DataNackPacket.deserialize (DataNackPacket.serialize ⟨[1, 4294967295]⟩) =
      some ⟨[1, 4294967295]⟩ :=
  ⟨ack_nack_roundtrip.1 [1, 4294967295] (by decide) (by decide),
   ack_nack_roundtrip.2.1 [1, 4294967295] (by decide) (by decide)⟩

/-! Claim C10: the per-destination sequence counter. -/

/-- The four big-endian sequence bytes of a wire frame (bytes 5 to 8). -/
def frameSeqBytes (l : List Nat) : List Nat := (l.drop 5).take 4

theorem frameSeqBytes_serialize (p : RawPacket) :
    frameSeqBytes (RawPacket.serialize p) = toBe32 p.seq := by
  simp only [frameSeqBytes, RawPacket.serialize, toBe32, List.cons_append, List.nil_append]
  rfl

theorem frameSeqBytes_filled (b : PooledBuffer) (pt : PacketType) (seq : Nat) :
    frameSeqBytes ((b.fill_protocol_header pt seq).full_data) = toBe32 seq := by
  simp only [frameSeqBytes, PooledBuffer.full_data, PooledBuffer.fill_protocol_header,
    List.drop_take, List.take_take]
  have hmin : min 4 (PROTOCOL_HEADER_SIZE + b.data_len - 5) = 4 := by
    simp only [PROTOCOL_HEADER_SIZE]; omega
  rw [hmin]
  simp only [toBe32, List.cons_append, List.nil_append]
  rfl

/-- Claim C10: for every destination the first assigned sequence is 0, each
assignment returns the stored counter and advances it by one modulo 2^32 (so
consecutive assignments differ by one wrapping), and the Data send path, the
DataAck flush, the Close frame, and the Ping frame all stamp their emitted
frame with the current counter of that destination and advance the same
counter. -/
theorem sequence_assignment_spec :
    (∀ (m : List (Addr × Nat)) (a : Addr), alistGet? m a = none →
       (Rudpbase.get_next_seq m a).1 = 0 ∧
       alistGet? (Rudpbase.get_next_seq m a).2 a = some 1) ∧
    (∀ (m : List (Addr × Nat)) (a : Addr) (n : Nat), alistGet? m a = some n →
       (Rudpbase.get_next_seq m a).1 = n ∧
       alistGet? (Rudpbase.get_next_seq m a).2 a = some ((n + 1) % 2 ^ 32)) ∧
    (∀ (m : List (Addr × Nat)) (a : Addr),
       (Rudpbase.get_next_seq (Rudpbase.get_next_seq m a).2 a).1 =
         ((Rudpbase.get_next_seq m a).1 + 1) % 2 ^ 32) ∧
    (∀ (r : Rudpbase) (buf : PooledBuffer) (target : Addr) (now : Nat),
       (r.send buf target now).2.1.map (fun e => (e.1, frameSeqBytes e.2)) =
         [(target, toBe32 ((alistGet? r.next_seq target).getD 0))] ∧
       alistGet? (r.send buf target now).1.next_seq target =
         some (((alistGet? r.next_seq target).getD 0 + 1) % 2 ^ 32)) ∧
    (∀ (r : Rudpbase) (target : Addr) (seqs : List Nat),
       r.pending_acks = [(target, seqs)] → seqs ≠ [] →
       (r.send_pending_acks).2.map (fun e => (e.1, frameSeqBytes e.2)) =
         [(target, toBe32 ((alistGet? r.next_seq target).getD 0))] ∧
       alistGet? (r.send_pending_acks).1.next_seq target =
         some (((alistGet? r.next_seq target).getD 0 + 1) % 2 ^ 32)) ∧
    (∀ (r : Rudpbase) (target : Addr),
       (r.send_close_packet target).2.1.map (fun e => (e.1, frameSeqBytes e.2)) =
         [(target, toBe32 ((alistGet? r.next_seq target).getD 0))] ∧
       alistGet? (r.send_close_packet target).1.next_seq target =
         some (((alistGet? r.next_seq target).getD 0 + 1) % 2 ^ 32)) ∧
    (∀ (r : Rudpbase) (addr : Addr) (ts now : Nat),
       (r.sendPing addr ts now).2.map (fun e => (e.1, frameSeqBytes e.2)) =
         [(addr, toBe32 ((alistGet? r.next_seq addr).getD 0))] ∧
       alistGet? (r.sendPing addr ts now).1.next_seq addr =
         some (((alistGet? r.next_seq addr).getD 0 + 1) % 2 ^ 32)) := by
  refine ⟨?_, ?_, ?_, ?_, ?_, ?_, ?_⟩
  · intro m a h
    simp [Rudpbase.get_next_seq, h, alistGet?_alistInsert_self]
  · intro m a n h
    simp [Rudpbase.get_next_seq, h, alistGet?_alistInsert_self]
  · intro m a
    simp [Rudpbase.get_next_seq, alistGet?_alistInsert_self]
  · intro r buf target now
    refine ⟨?_, ?_⟩
    · simp only [Rudpbase.send, Rudpbase.get_next_seq, List.map_cons, List.map_nil,
        frameSeqBytes_filled]
    · simp only [Rudpbase.send, Rudpbase.get_next_seq]
      exact alistGet?_alistInsert_self ..
  · intro r target seqs hpa hne
    cases seqs with
    | nil => exact absurd rfl hne
    | cons s0 tl =>
      refine ⟨?_, ?_⟩
      · simp only [Rudpbase.send_pending_acks, hpa, Rudpbase.ackFlushLoop, List.isEmpty_cons,
          Bool.false_eq_true, if_false, Rudpbase.get_next_seq, List.map_cons, List.map_nil,
          frameSeqBytes_serialize]
      · simp only [Rudpbase.send_pending_acks, hpa, Rudpbase.ackFlushLoop, List.isEmpty_cons,
          Bool.false_eq_true, if_false, Rudpbase.get_next_seq]
        exact alistGet?_alistInsert_self ..
  · intro r target
    refine ⟨?_, ?_⟩
    · simp only [Rudpbase.send_close_packet, Rudpbase.get_next_seq, List.map_cons,
        List.map_nil, frameSeqBytes_serialize]
    · simp only [Rudpbase.send_close_packet, Rudpbase.get_next_seq]
      exact alistGet?_alistInsert_self ..
  · intro r addr ts now
    refine ⟨?_, ?_⟩
    · simp only [Rudpbase.sendPing, Rudpbase.get_next_seq, List.map_cons, List.map_nil,
        frameSeqBytes_serialize]
    · simp only [Rudpbase.sendPing, Rudpbase.get_next_seq]
      exact alistGet?_alistInsert_self ..

/-- Witness for C10: the counter behaviour at concrete states: a fresh peer
yields 0 then 1, a stored counter 5 yields 5 then 6, and each frame-emitting
operation at counter 0 stamps sequence 0 and stores 1. -/
theorem sequence_assignment_spec_witness :
    (Rudpbase.get_next_seq [] 0).1 = 0 ∧
    (Rudpbase.get_next_seq [(0, 5)] 0).1 = 5 ∧
    (Rudpbase.send_pending_acks { Rudpbase.init with pending_acks := [(3, [7])] }).2.map
        (fun e => (e.1, frameSeqBytes e.2)) = [(3, toBe32 0)] ∧
    alistGet? (Rudpbase.send_close_packet Rudpbase.init 4).1.next_seq 4 = some 1 ∧
    (Rudpbase.sendPing Rudpbase.init 6 1234 99).2.map (fun e => (e.1, frameSeqBytes e.2)) =
      [(6, toBe32 0)] :=
  ⟨(sequence_assignment_spec.1 [] 0 rfl).1,
   (sequence_assignment_spec.2.1 [(0, 5)] 0 5 rfl).1,
   (sequence_assignment_spec.2.2.2.2.1 { Rudpbase.init with pending_acks := [(3, [7])] }
      3 [7] rfl (by simp)).1,
   by
     have h := (sequence_assignment_spec.2.2.2.2.2.1 Rudpbase.init 4).2
     simpa using h,
   (sequence_assignment_spec.2.2.2.2.2.2 Rudpbase.init 6 1234 99).1⟩

/-! Claim C1: congestion admission on the send path. -/

/-- A peer whose congestion window is exhausted: 5 packets in flight against a
window of 1, so can_send is false. -/
def c1Peer : RttStats := { RttStats.new with in_flight := 5, cwnd := 1 }

/-- An engine tracking rtt statistics for peer 0 with the window exhausted. -/
def c1State : Rudpbase := { Rudpbase.init with rtt_stats := [(0, c1Peer)] }

/-- An all-zero pooled buffer of the fixed size with no user data. -/
def zeroBuf : PooledBuffer := ⟨List.replicate DEFAULT_BUFFER_SIZE 0, 0⟩

/-- Claim C1, evaluated at the failing input: with in_flight = 5 and cwnd = 1
the admission predicate can_send is false, yet send still succeeds, transmits
one frame, and leaves in_flight untouched (on_packet_sent is never applied):
the send path performs no congestion admission and no CongestionWindowFull
error exists for it to surface. -/
theorem send_ignores_congestion_window :
    RttStats.can_send c1Peer = false ∧
    (c1State.send zeroBuf 0 1000).2.2 = .ok () ∧
    (c1State.send zeroBuf 0 1000).2.1.length = 1 ∧
    (alistGet? (c1State.send zeroBuf 0 1000).1.rtt_stats 0).map RttStats.in_flight =
      some 5 := by
  exact ⟨rfl, rfl, rfl, rfl⟩

/-! Claim C2: Karn's algorithm on DataAck rtt samples. -/

theorem deserialize_serialize_single (s : Nat) (hs : s < 2 ^ 32) :
    DataAckPacket.deserialize (DataAckPacket.serialize ⟨[s]⟩) = some ⟨[s]⟩ := by
  simp only [DataAckPacket.serialize, DataAckPacket.deserialize, List.flatMap_cons,
    List.flatMap_nil, List.append_nil, List.length_cons, toBe32, List.length, readSeqs]
  rw [if_neg (by omega)]
  rw [fromBe4_toBe32, Nat.mod_eq_of_lt hs]

/-- An engine with one pending packet for peer 0 at sequence 7 that has already
been retransmitted once (retry_count = 1), sent at instant 0 with rto 200 ms. -/
def c2State : Rudpbase :=
  { Rudpbase.init with send_buffer := [(0, [(7, ⟨[], 0, 1, 200⟩)])] }

/-- Claim C2 counterexample: the pending packet at sequence 7 has retry_count 1
(it was retransmitted), yet handling the DataAck that removes it feeds the
sample 900 ms to the estimator and moves srtt from its prior 100 ms to 200 ms:
a sample from a retransmitted packet does influence SRTT. -/
theorem karn_counterexample :
    (alistGet? ((alistGet? c2State.send_buffer 0).getD []) 7).map PendingPacket.retry_count
      = some 1 ∧
    alistGet? c2State.rtt_stats 0 = none ∧
    RttStats.new.srtt = 100 ∧
    (alistGet? (c2State.handle_data_ack_packet
        ⟨.DataAck, 0, 0, DataAckPacket.serialize ⟨[7]⟩⟩ 0 900).rtt_stats 0).map RttStats.srtt
      = some 200 := by
  exact ⟨rfl, rfl, rfl, by decide⟩

/-- Claim C2, amended: when a DataAck removes a PendingPacket from the
retransmit map, the RTT sample now minus send_time is supplied to the timing
estimator unconditionally, whatever the packet's retry_count: Karn's algorithm
is not implemented. -/
theorem data_ack_rtt_sample_unconditional (r : Rudpbase) (frm : Addr)
    (c q now s : Nat) (pkts : List (Nat × PendingPacket)) (p : PendingPacket)
    (hs : s < 2 ^ 32)
    (hb : alistGet? r.send_buffer frm = some pkts)
    (hp : alistGet? pkts s = some p) :
    alistGet? (r.handle_data_ack_packet ⟨.DataAck, c, q, DataAckPacket.serialize ⟨[s]⟩⟩
        frm now).rtt_stats frm =
      some (((alistGet? r.rtt_stats frm).getD RttStats.new).update_rtt (now - p.send_time)) ∧
    alistGet? (r.handle_data_ack_packet ⟨.DataAck, c, q, DataAckPacket.serialize ⟨[s]⟩⟩
        frm now).send_buffer frm = some (alistErase s pkts) := by
  have hdeser := deserialize_serialize_single s hs
  simp only [Rudpbase.handle_data_ack_packet, hdeser, List.foldl_cons, List.foldl_nil]
  simp only [Rudpbase.ackOne, hb, hp]
  constructor
  · exact alistGet?_alistInsert_self ..
  · exact alistGet?_alistInsert_self ..

/-- Witness for the amended C2 theorem at the concrete retransmitted packet:
the estimator entry for peer 0 after the ack is exactly the unconditional
update with sample 900. -/
theorem data_ack_rtt_sample_unconditional_witness :
    alistGet? (c2State.handle_data_ack_packet
        ⟨.DataAck, 0, 0, DataAckPacket.serialize ⟨[7]⟩⟩ 0 900).rtt_stats 0 =
      some (RttStats.new.update_rtt 900) := by
  have h := (data_ack_rtt_sample_unconditional c2State 0 0 0 900 7 [(7, ⟨[], 0, 1, 200⟩)]
    ⟨[], 0, 1, 200⟩ (by decide) rfl rfl).1
  simpa using h

/-! Claim C7: data frame handling, deduplication, and at-most-once delivery. -/

theorem get_write_buffer_shape (p : BufferPool)
    (hp : ∀ raw ∈ p.free_buffers, raw.length = DEFAULT_BUFFER_SIZE) :
    p.get_write_buffer.1.raw_buffer.length = DEFAULT_BUFFER_SIZE ∧
    p.get_write_buffer.1.data_len = 0 := by
  unfold BufferPool.get_write_buffer BufferPool.get_buffer
  cases h : p.free_buffers with
  | nil => simp
  | cons raw rest =>
    refine ⟨?_, rfl⟩
    simpa using hp raw (h ▸ List.mem_cons_self raw rest)

theorem writeData_length (b : PooledBuffer) (bytes : List Nat)
    (h : PROTOCOL_HEADER_SIZE + bytes.length ≤ b.raw_buffer.length) :
    (b.writeData bytes).raw_buffer.length = b.raw_buffer.length := by
  simp only [PooledBuffer.writeData, List.length_append, List.length_take, List.length_drop]
  omega

theorem writeData_drop (b : PooledBuffer) (bytes : List Nat)
    (h9 : PROTOCOL_HEADER_SIZE ≤ b.raw_buffer.length) :
    (b.writeData bytes).raw_buffer.drop PROTOCOL_HEADER_SIZE =
      bytes ++ b.raw_buffer.drop (PROTOCOL_HEADER_SIZE + bytes.length) := by
  simp only [PooledBuffer.writeData, List.append_assoc]
  rw [List.drop_left' (by rw [List.length_take]; omega)]

/-- The duplicate branch of handle_data_packet: an already-received sequence
only schedules another DataAck; nothing reaches the caller, the received set
and the statistics are untouched. -/
theorem handle_data_packet_dup (r : Rudpbase) (pkt : RawPacket) (frm : Addr) (now : Nat)
    (h : pkt.seq ∈ (alistGet? r.recv_acks frm).getD []) :
    (r.handle_data_packet pkt frm now).2 = .ok none ∧
    (alistGet? (r.handle_data_packet pkt frm now).1.pending_acks frm).getD [] =
      (alistGet? r.pending_acks frm).getD [] ++ [pkt.seq] ∧
    (r.handle_data_packet pkt frm now).1.connection_stats = r.connection_stats ∧
    (alistGet? (r.handle_data_packet pkt frm now).1.recv_acks frm).getD [] =
      (alistGet? r.recv_acks frm).getD [] := by
  simp only [Rudpbase.handle_data_packet, if_pos h, Rudpbase.send_ack]
  refine ⟨trivial, ?_, trivial, ?_⟩
  · rw [alistGet?_alistInsert_self]
    simp [alistGet?_alistInsert_self]
  · rw [alistGet?_alistInsert_self]
    rfl

/-- The fresh branch of handle_data_packet: a new sequence is recorded in the
received set, a DataAck is queued, packets_received is bumped, and the payload
comes back to the caller in a freshly acquired pooled buffer. -/
theorem handle_data_packet_fresh (r : Rudpbase) (pkt : RawPacket) (frm : Addr) (now : Nat)
    (h : pkt.seq ∉ (alistGet? r.recv_acks frm).getD [])
    (hpool : ∀ raw ∈ r.buffer_pool.free_buffers, raw.length = DEFAULT_BUFFER_SIZE)
    (hdata : pkt.data.length ≤ 1400) :
    (∃ b : PooledBuffer, (r.handle_data_packet pkt frm now).2 = .ok (some (frm, b)) ∧
       b.data = pkt.data) ∧
    (alistGet? (r.handle_data_packet pkt frm now).1.recv_acks frm).getD [] =
      pkt.seq :: (alistGet? r.recv_acks frm).getD [] ∧
    (alistGet? (r.handle_data_packet pkt frm now).1.pending_acks frm).getD [] =
      (alistGet? r.pending_acks frm).getD [] ++ [pkt.seq] ∧
    (alistGet? (r.handle_data_packet pkt frm now).1.connection_stats frm).map
        ConnectionStats.packets_received =
      some (((alistGet? r.connection_stats frm).getD
        (ConnectionStats.new now)).packets_received + 1) := by
  obtain ⟨hlen, hdl⟩ := get_write_buffer_shape r.buffer_pool hpool
  have hregion : r.buffer_pool.get_write_buffer.1.dataRegion.length = 1400 := by
    simp only [PooledBuffer.dataRegion, List.length_drop, hlen]
    decide
  have hgt : ¬(pkt.data.length > r.buffer_pool.get_write_buffer.1.dataRegion.length) := by
    rw [hregion]; omega
  have h9 : PROTOCOL_HEADER_SIZE + pkt.data.length ≤
      r.buffer_pool.get_write_buffer.1.raw_buffer.length := by
    rw [hlen]
    simp only [PROTOCOL_HEADER_SIZE, DEFAULT_BUFFER_SIZE]
    omega
  have hWlen : ((r.buffer_pool.get_write_buffer.1).writeData pkt.data).raw_buffer.length =
      DEFAULT_BUFFER_SIZE := by
    rw [writeData_length _ _ h9, hlen]
  have hnocap : ¬(pkt.data.length > DEFAULT_BUFFER_SIZE - PROTOCOL_HEADER_SIZE) := by
    simp only [DEFAULT_BUFFER_SIZE, PROTOCOL_HEADER_SIZE]
    omega
  have hset : ((r.buffer_pool.get_write_buffer.1).writeData pkt.data).set_data_len
      pkt.data.length =
      ({ (r.buffer_pool.get_write_buffer.1).writeData pkt.data with
         data_len := pkt.data.length }, .ok ()) := by
    simp only [PooledBuffer.set_data_len, hWlen]
    rw [if_neg hnocap]
  have h9' : PROTOCOL_HEADER_SIZE ≤ r.buffer_pool.get_write_buffer.1.raw_buffer.length := by
    omega
  have hbdata : ({ (r.buffer_pool.get_write_buffer.1).writeData pkt.data with
      data_len := pkt.data.length } : PooledBuffer).data = pkt.data := by
    simp only [PooledBuffer.data]
    rw [writeData_drop _ _ h9', List.take_left]
  simp only [Rudpbase.handle_data_packet, if_neg h, if_neg hgt, hset, Rudpbase.send_ack]
  refine ⟨⟨_, rfl, hbdata⟩, ?_, ?_, ?_⟩
  · rw [alistGet?_alistInsert_self]
    rfl
  · rw [alistGet?_alistInsert_self]
    simp [alistGet?_alistInsert_self]
  · rw [alistGet?_alistInsert_self]
    rfl

/-- Claim C7: a Data frame whose sequence is already in the peer's received set
only re-queues a DataAck and surfaces nothing, leaving statistics alone; a
fresh sequence is inserted into the received set, a DataAck is queued,
packets_received is bumped, and the payload is handed back in a freshly
acquired pooled buffer; replaying the same frame afterwards yields no second
delivery, so no payload reaches the caller twice. -/
theorem handle_data_packet_spec (r : Rudpbase) (pkt : RawPacket) (frm : Addr) (now : Nat) :
    (pkt.seq ∈ (alistGet? r.recv_acks frm).getD [] →
       (r.handle_data_packet pkt frm now).2 = .ok none ∧
       (alistGet? (r.handle_data_packet pkt frm now).1.pending_acks frm).getD [] =
         (alistGet? r.pending_acks frm).getD [] ++ [pkt.seq] ∧
       (r.handle_data_packet pkt frm now).1.connection_stats = r.connection_stats) ∧
    (pkt.seq ∉ (alistGet? r.recv_acks frm).getD [] →
     (∀ raw ∈ r.buffer_pool.free_buffers, raw.length = DEFAULT_BUFFER_SIZE) →
     pkt.data.length ≤ 1400 →
       (∃ b : PooledBuffer, (r.handle_data_packet pkt frm now).2 = .ok (some (frm, b)) ∧
          b.data = pkt.data) ∧
       (alistGet? (r.handle_data_packet pkt frm now).1.recv_acks frm).getD [] =
         pkt.seq :: (alistGet? r.recv_acks frm).getD [] ∧
       (alistGet? (r.handle_data_packet pkt frm now).1.pending_acks frm).getD [] =
         (alistGet? r.pending_acks frm).getD [] ++ [pkt.seq] ∧
       (alistGet? (r.handle_data_packet pkt frm now).1.connection_stats frm).map
           ConnectionStats.packets_received =
         some (((alistGet? r.connection_stats frm).getD
           (ConnectionStats.new now)).packets_received + 1) ∧
       (∀ now2,
          ((r.handle_data_packet pkt frm now).1.handle_data_packet pkt frm now2).2 =
            .ok none)) := by
  refine ⟨fun h => ?_, fun h hpool hdata => ?_⟩
  · obtain ⟨h1, h2, h3, _⟩ := handle_data_packet_dup r pkt frm now h
    exact ⟨h1, h2, h3⟩
  · obtain ⟨h1, h2, h3, h4⟩ := handle_data_packet_fresh r pkt frm now h hpool hdata
    refine ⟨h1, h2, h3, h4, fun now2 => ?_⟩
    have hmem : pkt.seq ∈
        (alistGet? (r.handle_data_packet pkt frm now).1.recv_acks frm).getD [] := by
      rw [h2]
      exact List.mem_cons_self ..
    exact (handle_data_packet_dup _ pkt frm now2 hmem).1

/-- An engine whose buffer pool free list is empty, so that a fresh acquisition
allocates a zeroed buffer of the fixed size. -/
def c7State : Rudpbase := { Rudpbase.init with buffer_pool := ⟨[], 0, 0, 0⟩ }

/-- Witness for C7: delivering the 3-byte payload of a fresh Data frame with
sequence 42 from peer 9, and the duplicate branch on a state that already holds
sequence 42. -/
theorem handle_data_packet_spec_witness :
    (∃ b : PooledBuffer,
       (c7State.handle_data_packet ⟨.Data, 0, 42, [1, 2, 3]⟩ 9 5).2 = .ok (some (9, b)) ∧
       b.data = [1, 2, 3]) ∧
    (Rudpbase.handle_data_packet { c7State with recv_acks := [(9, [42])] }
       ⟨.Data, 0, 42, [1, 2, 3]⟩ 9 5).2 = .ok none :=
  ⟨((handle_data_packet_spec c7State ⟨.Data, 0, 42, [1, 2, 3]⟩ 9 5).2 (by decide)
      (fun raw hraw => absurd hraw (List.not_mem_nil raw)) (by decide)).1,
   ((handle_data_packet_spec { c7State with recv_acks := [(9, [42])] }
      ⟨.Data, 0, 42, [1, 2, 3]⟩ 9 5).1 (by decide)).1⟩

/-! Claim C4: acknowledgement flushing. -/

/-- An engine with 256 acknowledgements pending for peer 0. -/
def c4State : Rudpbase := { Rudpbase.init with pending_acks := [(0, List.range 256)] }

set_option maxRecDepth 100000 in
/-- Claim C4 counterexample: with 256 pending acknowledgements the flush still
emits exactly one frame and carries nothing over to later ticks; that frame's
ack payload is 1 + 256 * 4 = 1025 bytes (over the claimed 1021-byte form) and
its count byte is 256 mod 256 = 0, not a cap at 255. -/
theorem ack_flush_counterexample :
    (c4State.send_pending_acks).2.length = 1 ∧
    (c4State.send_pending_acks).1.pending_acks = [] ∧
    (DataAckPacket.serialize ⟨List.range 256⟩).length = 1025 ∧
    (DataAckPacket.serialize ⟨List.range 256⟩).head? = some 0 := by
  refine ⟨rfl, rfl, by decide, by decide⟩

/-- Claim C4, amended: pending acknowledgements for a peer are flushed once per
engine tick as a single DataAck frame, but that frame lists all pending
sequences, however many there are: the count byte is the list length reduced
modulo 256 and nothing is carried over to subsequent ticks, so with more than
255 pending the count byte wraps instead of splitting the excess. -/
theorem ack_flush_spec (r : Rudpbase) (target : Addr) (seqs : List Nat)
    (hpa : r.pending_acks = [(target, seqs)]) (hne : seqs ≠ []) :
    (r.send_pending_acks).2 =
      [(target, RawPacket.serialize ⟨.DataAck,
         SecurityCode.calculate .DataAck ((alistGet? r.next_seq target).getD 0)
           (DataAckPacket.serialize ⟨seqs⟩),
         (alistGet? r.next_seq target).getD 0,
         DataAckPacket.serialize ⟨seqs⟩⟩)] ∧
    (r.send_pending_acks).1.pending_acks = [] ∧
    (DataAckPacket.serialize ⟨seqs⟩).head? = some (seqs.length % 256) ∧
    (DataAckPacket.serialize ⟨seqs⟩).length = 1 + 4 * seqs.length := by
  refine ⟨?_, ?_, rfl, ?_⟩
  · cases seqs with
    | nil => exact absurd rfl hne
    | cons s0 tl =>
      simp only [Rudpbase.send_pending_acks, hpa, Rudpbase.ackFlushLoop, List.isEmpty_cons,
        Bool.false_eq_true, if_false, Rudpbase.get_next_seq, DataAckPacket.new]
  · simp only [Rudpbase.send_pending_acks]
  · simp only [DataAckPacket.serialize, List.length_cons, flatMap_toBe32_length]
    omega

/-- Witness for the amended C4 theorem: flushing two pending acknowledgements
for peer 3 leaves nothing queued and writes count byte 2. -/
theorem ack_flush_spec_witness :
    (Rudpbase.send_pending_acks
      { Rudpbase.init with pending_acks := [(3, [7, 8])] }).1.pending_acks = [] ∧
    (DataAckPacket.serialize ⟨[7, 8]⟩).head? = some 2 := by
  have h := ack_flush_spec { Rudpbase.init with pending_acks := [(3, [7, 8])] } 3 [7, 8]
    rfl (by simp)
  exact ⟨h.2.1, by simpa using h.2.2.1⟩

/-! Claim C3: the retransmission sweep. -/

theorem alistGet?_eq_none_of_not_mem {β : Type} (m : List (Nat × β)) (s : Nat)
    (h : s ∉ m.map Prod.fst) : alistGet? m s = none := by
  induction m with
  | nil => rfl
  | cons hd tl ih =>
    obtain ⟨k, v⟩ := hd
    simp only [List.map_cons, List.mem_cons] at h
    push_neg at h
    simp only [alistGet?]
    rw [if_neg (fun hk => h.1 hk.symm)]
    exact ih h.2

theorem processPkts_fst_sublist (now : Nat) (pkts : List (Nat × PendingPacket)) :
    ((Rudpbase.processPkts now pkts).1.map Prod.fst).Sublist (pkts.map Prod.fst) := by
  induction pkts with
  | nil => simp [Rudpbase.processPkts]
  | cons hd rest ih =>
    obtain ⟨s, p⟩ := hd
    rcases hrec : Rudpbase.processPkts now rest with ⟨P, E, N⟩
    rw [hrec] at ih
    by_cases hr : p.should_retry now <;> by_cases hc : p.retry_count ≥ 5 <;>
      simp only [Rudpbase.processPkts, hr, hc, if_true, if_false, hrec, List.map_cons] <;>
      first
        | exact List.Sublist.cons _ ih
        | exact List.Sublist.cons₂ _ ih

theorem processPkts_lookup (now : Nat) (pkts : List (Nat × PendingPacket))
    (hnd : (pkts.map Prod.fst).Nodup) (s : Nat) (p : PendingPacket)
    (hp : alistGet? pkts s = some p) :
    alistGet? (Rudpbase.processPkts now pkts).1 s =
      if p.should_retry now then
        (if p.retry_count ≥ 5 then none else some (p.retry now (p.rto * 2)))
      else some p := by
  induction pkts with
  | nil => exact absurd hp (by simp [alistGet?])
  | cons hd rest ih =>
    obtain ⟨s0, p0⟩ := hd
    simp only [List.map_cons, List.nodup_cons] at hnd
    rcases hrec : Rudpbase.processPkts now rest with ⟨P, E, N⟩
    by_cases hss : s0 = s
    · subst hss
      have hp0 : p0 = p := by
        simpa [alistGet?] using hp
      subst hp0
      by_cases hr : p0.should_retry now
      · rw [if_pos hr]
        by_cases hc : p0.retry_count ≥ 5
        · rw [if_pos hc]
          simp only [Rudpbase.processPkts, hr, hc, if_true, hrec]
          have hnot : s0 ∉ (Rudpbase.processPkts now rest).1.map Prod.fst :=
            fun hmem => hnd.1 (processPkts_fst_sublist now rest |>.mem hmem)
          rw [hrec] at hnot
          exact alistGet?_eq_none_of_not_mem P s0 hnot
        · rw [if_neg hc]
          simp only [Rudpbase.processPkts, hr, hc, if_true, if_false, hrec, alistGet?,
            if_pos rfl]
      · rw [if_neg hr]
        simp only [Rudpbase.processPkts, hr, if_false, hrec, alistGet?, if_pos rfl]
        simp
    · have hp' : alistGet? rest s = some p := by
        simpa [alistGet?, hss] using hp
      have ihr := ih hnd.2 hp'
      rw [hrec] at ihr
      by_cases hr : p0.should_retry now <;> by_cases hc : p0.retry_count ≥ 5 <;>
        simp only [Rudpbase.processPkts, hr, hc, if_true, if_false, hrec, alistGet?,
          if_neg hss] <;>
        exact ihr

theorem processPkts_emit (now : Nat) (pkts : List (Nat × PendingPacket))
    (s : Nat) (p : PendingPacket) (hp : alistGet? pkts s = some p)
    (hr : p.should_retry now = true) (hc : ¬p.retry_count ≥ 5) :
    p.data ∈ (Rudpbase.processPkts now pkts).2.1 := by
  induction pkts with
  | nil => exact absurd hp (by simp [alistGet?])
  | cons hd rest ih =>
    obtain ⟨s0, p0⟩ := hd
    rcases hrec : Rudpbase.processPkts now rest with ⟨P, E, N⟩
    by_cases hss : s0 = s
    · subst hss
      have hp0 : p0 = p := by
        simpa [alistGet?] using hp
      subst hp0
      simp only [Rudpbase.processPkts, hr, hc, if_true, if_false, hrec]
      exact List.mem_cons_self ..
    · have hp' : alistGet? rest s = some p := by
        simpa [alistGet?, hss] using hp
      have ihr := ih hp'
      rw [hrec] at ihr
      by_cases hr0 : p0.should_retry now <;> by_cases hc0 : p0.retry_count ≥ 5 <;>
        simp only [Rudpbase.processPkts, hr0, hc0, if_true, if_false, hrec] <;>
        first
          | exact ihr
          | exact List.mem_cons_of_mem _ ihr

theorem processPkts_nil_count (now : Nat) (pkts : List (Nat × PendingPacket))
    (h : (Rudpbase.processPkts now pkts).1 = []) :
    (Rudpbase.processPkts now pkts).2.2 = 0 := by
  induction pkts with
  | nil => rfl
  | cons hd rest ih =>
    obtain ⟨s0, p0⟩ := hd
    rcases hrec : Rudpbase.processPkts now rest with ⟨P, E, N⟩
    rw [hrec] at ih
    simp only [Rudpbase.processPkts, hrec] at h ⊢
    by_cases hr : p0.should_retry now
    · by_cases hc : p0.retry_count ≥ 5
      · rw [if_pos hr, if_pos hc] at h ⊢
        exact ih h
      · rw [if_pos hr, if_neg hc] at h
        exact absurd h (List.cons_ne_nil _ _)
    · rw [if_neg hr] at h
      exact absurd h (List.cons_ne_nil _ _)

theorem processPkts_retrans_count (now : Nat) (pkts : List (Nat × PendingPacket)) :
    (Rudpbase.processPkts now pkts).2.2 =
      (pkts.filter
        (fun q => q.2.should_retry now && !(decide (q.2.retry_count ≥ 5)))).length := by
  induction pkts with
  | nil => rfl
  | cons hd rest ih =>
    obtain ⟨s0, p0⟩ := hd
    rcases hrec : Rudpbase.processPkts now rest with ⟨P, E, N⟩
    rw [hrec] at ih
    by_cases hr : p0.should_retry now
    · by_cases hc : p0.retry_count ≥ 5
      · simp only [Rudpbase.processPkts, hr, hc, if_true, hrec, List.filter_cons]
        simp [hr, hc]
        exact ih
      · simp only [Rudpbase.processPkts, hr, hc, if_true, if_false, hrec, List.filter_cons]
        simp [hr, hc]
        exact ih
    · simp only [Rudpbase.processPkts, hr, if_false, hrec, List.filter_cons]
      simp [hr]
      exact ih

/-- An engine with one pending packet for peer 0 at sequence 1: sent at instant
0, never retried, with a current per-packet rto of 2000 ms. -/
def c3State : Rudpbase :=
  { Rudpbase.init with send_buffer := [(0, [(1, ⟨[9, 9], 0, 0, 2000⟩)])] }

/-- Claim C3 counterexample: at instant 2000 the packet's timer has expired and
its retry count 0 is under the cap, yet after the sweep its rto is 4000 ms --
doubled with no 3 s cap, since min(2000*2, 3000) = 3000 -- and packets_lost for
the peer has been incremented to 1 although no packet reached 5 retries. -/
theorem handle_retransmissions_counterexample :
    PendingPacket.should_retry ⟨[9, 9], 0, 0, 2000⟩ 2000 = true ∧
    (alistGet?
        ((alistGet? (c3State.handle_retransmissions 2000).1.send_buffer 0).getD []) 1).map
      PendingPacket.rto = some 4000 ∧
    min (2000 * 2) 3000 = 3000 ∧ (4000 : Nat) ≠ 3000 ∧
    (alistGet? (c3State.handle_retransmissions 2000).1.connection_stats 0).map
      ConnectionStats.packets_lost = some 1 := by
  exact ⟨rfl, by decide, by decide, by decide, by decide⟩

/-- Claim C3, amended: on a tick, every pending packet whose timer has expired
is removed when retry_count ≥ 5 and otherwise restamped with retry_count + 1,
send_time = now and rto doubled with no cap, its bytes being retransmitted and
the peer's retransmissions counter incremented once per retransmitted packet;
non-expired packets are untouched.  packets_lost is not incremented at a
removal: instead it is incremented once per tick for every peer that still has
pending packets after the sweep, and it stays untouched when the peer's
retransmit map was emptied. -/
theorem handle_retransmissions_spec (r : Rudpbase) (a : Addr)
    (pkts : List (Nat × PendingPacket)) (now : Nat)
    (hsb : r.send_buffer = [(a, pkts)])
    (hnd : (pkts.map Prod.fst).Nodup) :
    (∀ s p, alistGet? pkts s = some p → p.should_retry now = true → p.retry_count ≥ 5 →
       alistGet? ((alistGet? (r.handle_retransmissions now).1.send_buffer a).getD []) s =
         none) ∧
    (∀ s p, alistGet? pkts s = some p → p.should_retry now = true → ¬p.retry_count ≥ 5 →
       alistGet? ((alistGet? (r.handle_retransmissions now).1.send_buffer a).getD []) s =
         some ⟨p.data, now, p.retry_count + 1, p.rto * 2⟩ ∧
       (a, p.data) ∈ (r.handle_retransmissions now).2) ∧
    (∀ s p, alistGet? pkts s = some p → p.should_retry now = false →
       alistGet? ((alistGet? (r.handle_retransmissions now).1.send_buffer a).getD []) s =
         some p) ∧
    ((Rudpbase.processPkts now pkts).1 ≠ [] →
       (alistGet? (r.handle_retransmissions now).1.connection_stats a).map
         ConnectionStats.packets_lost =
       some (((alistGet? r.connection_stats a).getD
         (ConnectionStats.new now)).packets_lost + 1)) ∧
    ((Rudpbase.processPkts now pkts).1 = [] →
       (r.handle_retransmissions now).1.connection_stats = r.connection_stats) ∧
    ((Rudpbase.processPkts now pkts).1 ≠ [] →
       (alistGet? (r.handle_retransmissions now).1.connection_stats a).map
         ConnectionStats.retransmissions =
       some (((alistGet? r.connection_stats a).getD
           (ConnectionStats.new now)).retransmissions +
         (pkts.filter
           (fun q => q.2.should_retry now && !(decide (q.2.retry_count ≥ 5)))).length)) := by
  rcases hpp : Rudpbase.processPkts now pkts with ⟨P, E, N⟩
  have hsend : (r.handle_retransmissions now).1.send_buffer =
      if P.isEmpty then [] else [(a, P)] := by
    simp only [Rudpbase.handle_retransmissions, hsb, Rudpbase.retransLoop, hpp]
    cases P <;> simp [Rudpbase.lossLoop]
  have hemit : (r.handle_retransmissions now).2 = E.map (fun e => (a, e)) := by
    simp only [Rudpbase.handle_retransmissions, hsb, Rudpbase.retransLoop, hpp]
    simp
  have hinner : ∀ s, alistGet?
      ((alistGet? (r.handle_retransmissions now).1.send_buffer a).getD []) s =
      alistGet? P s := by
    intro s
    rw [hsend]
    cases hP : P.isEmpty
    · simp only [if_false, Bool.false_eq_true]
      simp [alistGet?]
    · simp only [if_true]
      rw [List.isEmpty_iff] at hP
      subst hP
      simp [alistGet?]
  refine ⟨?_, ?_, ?_, ?_, ?_, ?_⟩
  · intro s p hp hr hc
    rw [hinner s]
    have := processPkts_lookup now pkts hnd s p hp
    rw [hpp, hr, if_pos rfl, if_pos hc] at this
    exact this
  · intro s p hp hr hc
    have hlook := processPkts_lookup now pkts hnd s p hp
    rw [hpp, hr, if_pos rfl, if_neg hc] at hlook
    refine ⟨?_, ?_⟩
    · rw [hinner s, hlook]
      rfl
    · rw [hemit]
      have hm := processPkts_emit now pkts s p hp hr hc
      rw [hpp] at hm
      exact List.mem_map_of_mem _ hm
  · intro s p hp hr
    have hlook := processPkts_lookup now pkts hnd s p hp
    rw [hpp, hr] at hlook
    simp only [Bool.false_eq_true, if_false] at hlook
    rw [hinner s]
    exact hlook
  · intro hne
    cases hP : P with
    | nil => exact absurd hP (fun h => hne (by rw [h]))
    | cons q qs =>
      subst hP
      simp only [Rudpbase.handle_retransmissions, hsb, Rudpbase.retransLoop, hpp,
        Rudpbase.lossLoop, List.filter_cons, List.isEmpty_cons, Bool.not_false, if_true,
        List.map_cons, List.map_nil]
      rw [alistGet?_alistInsert_self]
      by_cases hN : N = 0
      · rw [if_pos hN]
        rfl
      · rw [if_neg hN]
        rw [alistGet?_alistInsert_self]
        rfl
  · intro hnil
    have hnil' : P = [] := hnil
    subst hnil'
    have hN : N = 0 := by
      have h0 := processPkts_nil_count now pkts
      rw [hpp] at h0
      exact h0 rfl
    subst hN
    simp only [Rudpbase.handle_retransmissions, hsb, Rudpbase.retransLoop, hpp]
    simp [Rudpbase.lossLoop]
  · intro hne
    cases hP : P with
    | nil => exact absurd hP (fun h => hne (by rw [h]))
    | cons q qs =>
      subst hP
      have hcnt : N = (pkts.filter
          (fun q => q.2.should_retry now && !(decide (q.2.retry_count ≥ 5)))).length := by
        have h0 := processPkts_retrans_count now pkts
        rw [hpp] at h0
        exact h0
      rw [← hcnt]
      simp only [Rudpbase.handle_retransmissions, hsb, Rudpbase.retransLoop, hpp,
        Rudpbase.lossLoop, List.filter_cons, List.isEmpty_cons, Bool.not_false, if_true,
        List.map_cons, List.map_nil]
      rw [alistGet?_alistInsert_self]
      by_cases hN : N = 0
      · rw [if_pos hN]
        subst hN
        rfl
      · rw [if_neg hN, alistGet?_alistInsert_self]
        rfl

/-- Witness for the amended C3 theorem at the concrete expired packet: after
the sweep at instant 2000 the packet is restamped to retry 1 with rto 4000,
its bytes are on the wire again, and the peer's packets_lost and retransmissions
counters are both 1. -/
theorem handle_retransmissions_spec_witness :
    alistGet? ((alistGet? (c3State.handle_retransmissions 2000).1.send_buffer 0).getD []) 1 =
      some ⟨[9, 9], 2000, 1, 4000⟩ ∧
    (0, [9, 9]) ∈ (c3State.handle_retransmissions 2000).2 ∧
    (alistGet? (c3State.handle_retransmissions 2000).1.connection_stats 0).map
      ConnectionStats.packets_lost = some 1 ∧
    (alistGet? (c3State.handle_retransmissions 2000).1.connection_stats 0).map
      ConnectionStats.retransmissions = some 1 := by
  have h := handle_retransmissions_spec c3State 0 [(1, ⟨[9, 9], 0, 0, 2000⟩)] 2000 rfl
    (by simp)
  refine ⟨?_, ?_, ?_, ?_⟩
  · have h2 := (h.2.1 1 ⟨[9, 9], 0, 0, 2000⟩ (by decide) (by decide) (by decide)).1
    simpa using h2
  · exact (h.2.1 1 ⟨[9, 9], 0, 0, 2000⟩ (by decide) (by decide) (by decide)).2
  · have h4 := h.2.2.2.1 (by decide)
    simpa using h4
  · have h6 := h.2.2.2.2.2 (by decide)
    simpa using h6

end Rudp
